import Mathlib

/-!
Verification development for the Block Pattern Expression Engine of
WorldEdit-BE-LL, a shallow embedding of
`src/core/store/BlockPattern.cpp` (2022) and
`src/core/store/BlockListPattern.cpp` (2023).

Modelling conventions:
* C++ `double` is embedded as `ℚ` (the claims under study are about the
  control flow of the selector and compiler, not about rounding of IEEE
  arithmetic).
* External collaborators (expression evaluator, block registry, block
  palette, legacy Java-name mapping, SNBT codec, the invoking player's
  hand) live in an `Env` record; the engine only applies them.
* The process-wide RNG stream and the caller-supplied variables map are
  threaded through an `EngState` record; `RNG::rand<double>()` pops the
  head of the stream.
* Block identities are represented by an inductive `Block` recording how
  the identity was obtained from the registry collaborators.
-/

set_option maxRecDepth 4000

namespace WE

/-- The NUL character: `std::string::operator[]` at `size()` yields `'\0'`. -/
def NUL : Char := Char.ofNat 0

/-- Left brace character. -/
def lbrace : Char := Char.ofNat 123

/-- Right brace character. -/
def rbrace : Char := Char.ofNat 125

/-- `str[i]` with the C++ guarantee that reading one past the end yields NUL. -/
def chAt (s : List Char) (i : Nat) : Char := s.getD i NUL

/-- C `round`: round half away from zero, as used on evaluator results. -/
def cround (q : ℚ) : ℤ := if 0 ≤ q then ⌊q + 1/2⌋ else ⌈q - 1/2⌉

/-- `static_cast<unsigned int>`: modular for integer sources; for the
`double` source in `getBlock` the source behavior is only defined on
`[0, 2^32)`, where this agrees with it. -/
def toUInt32Wrap (z : ℤ) : ℕ := (z % 4294967296).toNat

/-- `INT_MIN`, the sentinel meaning "formula-valued field". -/
def INT_MIN : ℤ := -2147483648

/-- Decimal value of a digit list. -/
def digitsVal (l : List Char) : ℕ :=
  l.foldl (fun a c => 10 * a + (c.toNat - 48)) 0

/-- `std::stoi` on the sign-and-digits tokens produced by the scanners:
leading digits are converted, a token with no leading digit throws
(`none`).  (The scanners never produce tokens with leading whitespace or
`+`.) -/
def stoiOpt (l : List Char) : Option ℤ :=
  match l with
  | '-' :: rest =>
    let ds := rest.takeWhile Char.isDigit
    if ds.isEmpty then none else some (-(digitsVal ds : ℤ))
  | _ =>
    let ds := l.takeWhile Char.isDigit
    if ds.isEmpty then none else some (digitsVal ds : ℤ)

/-- Unsigned part of `std::stod` on scanner number tokens
(digits, optionally a point and more digits; no exponent forms can be
produced by the scanner).  A token with no digit at all throws (`none`). -/
def stodPos (l : List Char) : Option ℚ :=
  let ds := l.takeWhile Char.isDigit
  let rest := l.drop ds.length
  match rest with
  | '.' :: r2 =>
    let fs := r2.takeWhile Char.isDigit
    if ds.isEmpty && fs.isEmpty then none
    else some ((digitsVal ds : ℚ) + (digitsVal fs : ℚ) / 10 ^ fs.length)
  | _ => if ds.isEmpty then none else some (digitsVal ds : ℚ)

/-- `std::stod` on scanner number tokens. -/
def stodOpt (l : List Char) : Option ℚ :=
  match l with
  | '-' :: rest => (stodPos rest).map Neg.neg
  | _ => stodPos l

/-- Substring occurrence test on character lists. -/
def infixCheck (pat : List Char) : List Char → Bool
  | [] => pat.isEmpty
  | c :: cs => pat.isPrefixOf (c :: cs) || infixCheck pat cs

/-- `s.find(pat) != std::string::npos`. -/
def cppFind (s pat : String) : Bool := infixCheck pat.toList s.toList

/-- The per-position variable map handed to the expression evaluator. -/
abbrev VarsMap := List (String × ℚ)

/-- A block position (`BlockPos`). -/
structure Pos where
  x : ℤ
  y : ℤ
  z : ℤ
deriving DecidableEq, Repr

instance : Inhabited Pos := ⟨⟨0, 0, 0⟩⟩

instance : Sub Pos := ⟨fun a b => ⟨a.x - b.x, a.y - b.y, a.z - b.z⟩⟩

/-- A concrete block identity, tagged by the registry call that produced
it: `Block::create(name, data)`, `BlockPalette::getBlock(idx)`,
`Block::create(CompoundTag::fromSNBT(s))`, the airs/water statics, or an
externally supplied block (hand snapshot, Java-name map image). -/
inductive Block
  | air
  | water
  | create (name : String) (data : ℤ)
  | palette (idx : ℕ)
  | fromSNBT (s : String)
  | ext (id : ℕ)
deriving DecidableEq, Repr

instance : Inhabited Block := ⟨Block.air⟩

/-- External collaborators consumed by the engine (expression evaluator,
block registry, legacy Java mapping, SNBT codec, held-item snapshot).
They are specified only at their interface boundary. -/
structure Env where
  eval : String → VarsMap → ℚ
  getBlockName : ℤ → String
  getBlockId : String → ℤ
  isBEBlock : String → Bool
  isJEBlock : String → Bool
  javaBlockMap : String → Block
  typeNameOf : Block → String
  variantOf : Block → ℤ
  hasBlockEntityB : Block → Bool
  snbtToBinary : String → String
  hand : Option Block

/-- Mutable ambient state threaded through resolution: the
caller-supplied variables map (passed by const reference in the source)
and the process-wide RNG stream (`RNG::rand<double>()` pops the head). -/
structure EngState where
  vars : VarsMap
  rng : List ℚ
deriving DecidableEq, Repr

/-- `Percents` member of both pattern classes.  Modelled from the spec:
the class definition lives in a header that is not part of the sources;
fields and their use are fixed by the two `.cpp` files, and the defaults
make a weightless term carry full weight (spec §6: `"stone"` — 100%
stone). -/
structure Percents where
  isNum : Bool := true
  value : ℚ := 100
  function : String := ""
deriving DecidableEq, Repr

/-- `RawBlock` member of both pattern classes.  Modelled from the spec:
the class definition lives in a header that is not part of the sources.
Field defaults follow the sentinel scheme the `.cpp` files test for
(spec §9: reserved large negative constants signal "unset"/"formula";
`-2140000000` reads as 0), and `RawBlock::RawBlock()` sets both block
layers to air.  `hasBE` flags an embedded block-entity payload
(spec §4.3: entity application only attempted if a payload is present). -/
structure RawBlock where
  blockId : ℤ := -2140000000
  blockData : ℤ := -2140000000
  blockIdfunc : String := ""
  blockDatafunc : String := ""
  constBlock : Bool := true
  block : Block := Block.air
  exBlock : Block := Block.air
  hasBE : Bool := false
  blockEntity : String := ""
deriving DecidableEq, Repr

instance : Inhabited RawBlock := ⟨{}⟩

instance : Inhabited Percents := ⟨{}⟩

/-- The slice of per-player data the pattern engine consults: whether the
player's clipboard currently holds content (`clipboard.used`).  Modelled
from the spec: clipboard storage itself is an external collaborator. -/
structure PlayerData where
  clipboardUsed : Bool
deriving DecidableEq, Repr

/-- The slice of a `Region` the clipboard branch reads: its bounding-box
minimum corner and its center (already converted to a `BlockPos`).
Modelled from the spec: region geometry is an external collaborator. -/
structure RegionM where
  center : Pos
  minCorner : Pos
deriving DecidableEq, Repr

/-- Split a character list at every occurrence of the delimiter
character. -/
def splitAtChar (d : Char) : List Char → List (List Char)
  | [] => [[]]
  | c :: cs =>
    let r := splitAtChar d cs
    if c == d then [] :: r
    else (c :: r.headD []) :: r.tail

/-- Modelled from the spec: `SplitStrWithPattern` (from the utility
header not present in the sources) splits a string at every occurrence
of the delimiter; the pattern string is a comma-separated list of
terms, and the engine only ever splits at `","`. -/
def SplitStrWithPattern (s delim : String) : List String :=
  (splitAtChar (delim.toList.headD ',') s.toList).map String.mk

/-- Character class of the numeric-literal tail: `str[i] == '.' || isdigit(str[i])`. -/
def numTailC (c : Char) : Bool := c == '.' || c.isDigit

/-- Identifier tail of both constructors' scanners: consume while
`isalpha || '_' || isdigit || (':' && isalpha(next))`; the lookahead for
`':'` uses the next character (NUL past the end). -/
def identTail : List Char → List Char × List Char
  | [] => ([], [])
  | c :: cs =>
    if c.isAlpha || c == '_' || c.isDigit then
      let (t, r) := identTail cs
      (c :: t, r)
    else if c == ':' && (chAt cs 0).isAlpha then
      let (t, r) := identTail cs
      (c :: t, r)
    else ([], c :: cs)

/-- Balanced `[...]` scan of `BlockListPattern`'s identifier branch,
entered after the opening `[` with nesting depth 1.  The source loop has
no end-of-string check; on an unterminated suffix it reads past the
buffer — modelled as consuming the whole remainder. -/
def brTail (kb : ℕ) : List Char → List Char × List Char
  | [] => ([], [])
  | c :: cs =>
    if kb = 0 then ([], c :: cs)
    else
      let kb' := if c == '[' then kb + 1 else if c == ']' then kb - 1 else kb
      let (t, r) := brTail kb' cs
      (c :: t, r)

/-- Balance-counted `{...}` scan, entered after the opening `{` with
depth 1 (the source counts down from `-1`); stops after the matching
close or at end of string. -/
def braceTail (depth : ℕ) : List Char → List Char × List Char
  | [] => ([], [])
  | c :: cs =>
    if depth = 0 then ([], c :: cs)
    else
      let d' := if c == lbrace then depth + 1 else if c == rbrace then depth - 1 else depth
      let (t, r) := braceTail d' cs
      (c :: t, r)

/-- One scanner step shared by both constructors.  Returns the `form`
fragment appended, the raw token pushed (if any), and the remaining
characters.  `withBracket` selects `BlockListPattern`'s additional
`[...]` suffix handling in the identifier branch.

Each branch mirrors the corresponding `while` loop: the inner loop
leaves `i` on the terminator character, the appended `form` tag carries
`str[i]` (NUL at end of string), and the trailing `++i` of the outer
loop skips that terminator. -/
def scanStep (withBracket : Bool) (c : Char) (cs : List Char) :
    String × Option String × List Char :=
  if c == '-' || c.isDigit then
    let tok := c :: cs.takeWhile numTailC
    let rest := cs.dropWhile numTailC
    ("num".push (rest.headD NUL), some (String.mk tok), rest.tail)
  else if c == '\'' then
    let tok := cs.takeWhile (fun d => d != '\'')
    let rest1 := cs.dropWhile (fun d => d != '\'')
    let after := rest1.tail
    ("funciton".push (after.headD NUL), some (String.mk tok), after.tail)
  else if c.isAlpha then
    if c == 'r' && chAt cs 0 == 't' && chAt cs 1 == '\'' then
      let rest0 := cs.drop 2
      let tok := rest0.takeWhile (fun d => d != '\'')
      let rest1 := rest0.dropWhile (fun d => d != '\'')
      let after := rest1.tail
      ("rtfunciton".push (after.headD NUL), some (String.mk tok), after.tail)
    else
      let (t1, r1) := identTail cs
      let (tok, rest2) :=
        if withBracket && chAt r1 0 == '[' then
          let (t2, r2) := brTail 1 r1.tail
          (c :: (t1 ++ '[' :: t2), r2)
        else (c :: t1, r1)
      ("block".push (rest2.headD NUL), some (String.mk tok), rest2.tail)
  else if c == lbrace then
    let (t, r) := braceTail 1 cs
    ("SNBT".push (r.headD NUL), some (String.mk (c :: t)), r.tail)
  else ("", none, cs)

/-- The character-by-character scanner loop of both constructors,
accumulating the `form` summary string and the `raw` token list.  Fuel
bounds the iteration count; every iteration consumes at least one
character, so `fuel = length` is exact. -/
def scanGo (withBracket : Bool) : ℕ → List Char → String → List String → String × List String
  | 0, _, form, raw => (form, raw)
  | _ + 1, [], form, raw => (form, raw)
  | fuel + 1, c :: cs, form, raw =>
    let (f, tok, rest) := scanStep withBracket c cs
    scanGo withBracket fuel rest (form ++ f) (raw ++ tok.toList)

/-- Scanner of `BlockListPattern::BlockListPattern` (with `[...]` suffixes). -/
def scanL (s : String) : String × List String :=
  scanGo true s.length s.toList "" []

/-- Scanner of `BlockPattern::BlockPattern` (no `[...]` suffixes). -/
def scanP (s : String) : String × List String :=
  scanGo false s.length s.toList "" []

/-- The signed-integer scan of `BlockPattern`'s clipboard branch: any
`-`-or-digit starts a token of the leading character plus following
digits, `std::stoi` converts it (throwing — `none` — on a lone `-`), and
the outer `mi++` skips the terminating character. -/
def intScanGo : ℕ → List Char → Option (List ℤ)
  | 0, _ => some []
  | _ + 1, [] => some []
  | fuel + 1, c :: cs =>
    if c == '-' || c.isDigit then
      let ds := cs.takeWhile Char.isDigit
      let rest := cs.dropWhile Char.isDigit
      match stoiOpt (c :: ds) with
      | none => none
      | some v => (intScanGo fuel rest.tail).map (v :: ·)
    else intScanGo fuel cs

/-- Signed-integer triple scan over the whole pattern string. -/
def intScanStr (s : String) : Option (List ℤ) := intScanGo s.length s.toList

/-- The weightless-term normalization `blockList[iter] = "%" + blockList[iter]`. -/
def normTerm (term : String) : String :=
  if cppFind term "%" then term else "%" ++ term

/-- Weight handling at the head of the constructor loop body (identical
in both files).  Consumes `raw[rawPtr]` when the term carries a `%`;
`std::stod` throwing on the weight token aborts compilation (`none`).
An out-of-range `raw[rawPtr]` read is undefined in the source and
modelled as `""`. -/
def weightStep (term : String) (raws : List String) : Option (Percents × List String) :=
  if cppFind term "%" then
    if cppFind term "num%" then
      match stodOpt (raws.headD "").toList with
      | none => none
      | some v => some ({ value := v }, raws.tail)
    else some ({ isNum := false, function := raws.headD "" }, raws.tail)
  else some ({}, raws)

/-- The `rt<digits>` test on an identifier token:
`tmpName[0] == 'r' && tmpName[1] == 't' && isdigit(tmpName[2])`. -/
def rtCheck (nm : String) : Bool :=
  chAt nm.toList 0 == 'r' && chAt nm.toList 1 == 't' && (chAt nm.toList 2).isDigit

/-- Namespace defaulting on an identifier token: prepend `minecraft:`
when the token does not contain it. -/
def mappedName (nm : String) : String :=
  if cppFind nm "minecraft:" then nm else "minecraft:" ++ nm

/-- The name token an identifier-based term consumes (the raw token
after the optional weight token). -/
def nameTok (term : String) (raws : List String) : String :=
  (if cppFind term "%" then raws.tail else raws).headD ""

/-- Group collection of the triple-`{..}{..}{..}` SNBT form.  The source
loop starts at `i2 = 1`, runs while `i2 < size - 1`, balance-scans each
group, and its trailing `i2++` skips one character after every group
(so for braces placed back to back the character opening the next group
is skipped). -/
def snbtGroupsGo : ℕ → List Char → List String → List String
  | 0, _, acc => acc
  | fuel + 1, l, acc =>
    if l.length ≤ 1 then acc
    else
      match l with
      | [] => acc
      | c :: cs =>
        if c == lbrace then
          let (t, r) := braceTail 1 cs
          snbtGroupsGo fuel r.tail (acc ++ [String.mk (c :: t)])
        else snbtGroupsGo fuel cs acc

/-- Build a `RawBlock` from an SNBT term's raw token (`%SNBT` branch,
identical in both files): a doubled opening brace selects the
(block, companion, entity) group form, otherwise the token is one tag. -/
def snbtStep (env : Env) (tmpSNBT : String) : RawBlock :=
  let base : RawBlock := { blockId := INT_MIN, blockData := INT_MIN }
  if chAt tmpSNBT.toList 0 == lbrace && chAt tmpSNBT.toList 1 == lbrace then
    let gs := snbtGroupsGo tmpSNBT.length (tmpSNBT.toList.drop 1) []
    let rb1 := { base with block := Block.fromSNBT (gs.headD "") }
    let rb2 := if 1 < gs.length then { rb1 with exBlock := Block.fromSNBT (gs.getD 1 "") } else rb1
    if 2 < gs.length then
      { rb2 with blockEntity := env.snbtToBinary (gs.getD 2 ""), hasBE := true }
    else rb2
  else { base with block := Block.fromSNBT tmpSNBT }

/-- Entry dispatch of `BlockListPattern`'s constructor loop on the
(normalized) term, in source order: `%num`, `%block`, `%rtfunciton`,
`%funciton`, `%SNBT`.  Returns the raw-block so far, the remaining raw
tokens, and whether the source `continue`s (skipping the data suffix and
the constant finalization). -/
def entryStepL (env : Env) (term : String) (raws : List String) :
    Option (RawBlock × List String × Bool) :=
  if cppFind term "%num" then
    match stoiOpt (raws.headD "").toList with
    | none => none
    | some id => some ({ blockId := -2140000002, blockIdfunc := env.getBlockName id }, raws.tail, false)
  else if cppFind term "%block" then
    let nm := raws.headD ""
    if rtCheck nm then
      match stoiOpt (nm.toList.drop 2) with
      | none => none
      | some k => some ({ block := Block.palette (toUInt32Wrap k) }, raws.tail, true)
    else
      some ({ blockId := -2140000002, blockIdfunc := mappedName nm }, raws.tail, false)
  else if cppFind term "%rtfunciton" then
    some ({ blockId := -2140000001, constBlock := false, blockIdfunc := raws.headD "" }, raws.tail, true)
  else if cppFind term "%funciton" then
    some ({ blockId := INT_MIN, constBlock := false, blockIdfunc := raws.headD "" }, raws.tail, false)
  else if cppFind term "%SNBT" then
    some (snbtStep env (raws.headD ""), raws.tail, true)
  else some ({}, raws, false)

/-- Entry dispatch of `BlockPattern`'s constructor loop: as above but a
numeric id is stored directly in `blockId` and an identifier resolves
through `getBlockId`. -/
def entryStepP (env : Env) (term : String) (raws : List String) :
    Option (RawBlock × List String × Bool) :=
  if cppFind term "%num" then
    match stoiOpt (raws.headD "").toList with
    | none => none
    | some id => some ({ blockId := id }, raws.tail, false)
  else if cppFind term "%block" then
    let nm := raws.headD ""
    if rtCheck nm then
      match stoiOpt (nm.toList.drop 2) with
      | none => none
      | some k => some ({ block := Block.palette (toUInt32Wrap k) }, raws.tail, true)
    else
      some ({ blockId := env.getBlockId (mappedName nm) }, raws.tail, false)
  else if cppFind term "%rtfunciton" then
    some ({ blockId := -2140000001, constBlock := false, blockIdfunc := raws.headD "" }, raws.tail, true)
  else if cppFind term "%funciton" then
    some ({ blockId := INT_MIN, constBlock := false, blockIdfunc := raws.headD "" }, raws.tail, false)
  else if cppFind term "%SNBT" then
    some (snbtStep env (raws.headD ""), raws.tail, true)
  else some ({}, raws, false)

/-- Data-value suffix handling (`:num` constant, `:funciton` formula),
identical in both files. -/
def dataStep (term : String) (rb : RawBlock) (raws : List String) :
    Option (RawBlock × List String) :=
  if cppFind term ":num" then
    match stoiOpt (raws.headD "").toList with
    | none => none
    | some d => some ({ rb with blockData := d }, raws.tail)
  else if cppFind term ":funciton" then
    some ({ rb with blockData := INT_MIN, constBlock := false, blockDatafunc := raws.headD "" }, raws.tail)
  else some (rb, raws)

/-- Constant finalization of `BlockListPattern`: a Bedrock name is
created directly; otherwise a known Java name goes through the legacy
mapping table, a `waterlogged=true` state in the (pre-mapping) name
forces the companion block to water, and name and data are re-read from
the mapped block. -/
def finalizeConstL (env : Env) (rb : RawBlock) : RawBlock :=
  if env.isBEBlock rb.blockIdfunc then
    { rb with block := Block.create rb.blockIdfunc rb.blockData }
  else if env.isJEBlock rb.blockIdfunc then
    let b := env.javaBlockMap rb.blockIdfunc
    let ex := if cppFind rb.blockIdfunc "waterlogged=true" then Block.water else rb.exBlock
    { rb with block := b, exBlock := ex,
              blockIdfunc := env.typeNameOf b, blockData := env.variantOf b }
  else rb

/-- Constant finalization of `BlockPattern`:
`Block::create(getBlockName(blockId), blockData)`. -/
def finalizeConstP (env : Env) (rb : RawBlock) : RawBlock :=
  { rb with block := Block.create (env.getBlockName rb.blockId) rb.blockData }

/-- One iteration of `BlockListPattern`'s constructor loop. -/
def buildOneL (env : Env) (term : String) (raws : List String) :
    Option ((Percents × RawBlock) × List String) :=
  match weightStep term raws with
  | none => none
  | some (pc, raws1) =>
    let term' := normTerm term
    match entryStepL env term' raws1 with
    | none => none
    | some (rb, raws2, skip) =>
      if skip then some ((pc, rb), raws2)
      else
        match dataStep term' rb raws2 with
        | none => none
        | some (rb2, raws3) =>
          some ((pc, if rb2.constBlock then finalizeConstL env rb2 else rb2), raws3)

/-- One iteration of `BlockPattern`'s constructor loop. -/
def buildOneP (env : Env) (term : String) (raws : List String) :
    Option ((Percents × RawBlock) × List String) :=
  match weightStep term raws with
  | none => none
  | some (pc, raws1) =>
    let term' := normTerm term
    match entryStepP env term' raws1 with
    | none => none
    | some (rb, raws2, skip) =>
      if skip then some ((pc, rb), raws2)
      else
        match dataStep term' rb raws2 with
        | none => none
        | some (rb2, raws3) =>
          some ((pc, if rb2.constBlock then finalizeConstP env rb2 else rb2), raws3)

/-- The whole constructor loop of `BlockListPattern`, threading the raw
token pointer. -/
def buildGoL (env : Env) : List String → List String → Option (List (Percents × RawBlock))
  | [], _ => some []
  | t :: ts, raws =>
    match buildOneL env t raws with
    | none => none
    | some (e, raws') => (buildGoL env ts raws').map (e :: ·)

/-- The whole constructor loop of `BlockPattern`. -/
def buildGoP (env : Env) : List String → List String → Option (List (Percents × RawBlock))
  | [], _ => some []
  | t :: ts, raws =>
    match buildOneP env t raws with
    | none => none
    | some (e, raws') => (buildGoP env ts raws').map (e :: ·)

/-- A compiled `BlockListPattern`: its entry list (percent/raw-block
pairs, kept index-aligned as pairs instead of two parallel vectors) and
whether the `#hand` special form was taken.  Member defaults are the
header's (not in the sources): no entries. -/
structure BLPattern where
  isHand : Bool := false
  entries : List (Percents × RawBlock) := []
deriving DecidableEq, Repr

/-- A compiled `BlockPattern`: `clipboard` models the
`clipboard != nullptr` state (the stored pointer to the player's
clipboard), plus the bias and the weighted entry list.  Member defaults
are the header's (not in the sources): null clipboard, zero bias, no
entries. -/
structure BPPattern where
  clipboard : Bool := false
  bias : Pos := ⟨0, 0, 0⟩
  entries : List (Percents × RawBlock) := []
deriving DecidableEq, Repr

/-- `BlockListPattern::BlockListPattern(str, xuid)`: the `#hand`
whole-string form snapshots the invoking player's held block at compile
time (air when the player or held block is missing); otherwise the
string is scanned, split at commas, and the entry list built.
Compilation exceptions (`std::stoi`/`std::stod`) surface as `none`. -/
def compileBLP (env : Env) (str : String) : Option BLPattern :=
  if str = "#hand" then
    some { isHand := true,
           entries := [({}, { block := env.hand.getD Block.air })] }
  else
    let sc := scanL str
    (buildGoL env (SplitStrWithPattern sc.1 ",") sc.2).map (fun es => { entries := es })

/-- Apply the clipboard-branch offsets: `bias.x -= poslist[0]` and so on
for the first three scanned integers. -/
def applyOffsets (b : Pos) (l : List ℤ) : Pos :=
  let b1 := if 0 < l.length then { b with x := b.x - l.getD 0 0 } else b
  let b2 := if 1 < l.length then { b1 with y := b1.y - l.getD 1 0 } else b1
  if 2 < l.length then { b2 with z := b2.z - l.getD 2 0 } else b2

/-- `BlockPattern::BlockPattern(str, xuid, region)`: a string containing
`#clipboard` takes the clipboard branch — if the player's clipboard is
unused the constructor returns early leaving the default members, else
the bias is the region center (string contains `@c`) or bounding-box
minimum (default `(0,0,0)` with no region), offset by the scanned
integer triple.  Any other string is scanned and built as a weighted
list.  `pd` is the invoking player's data at compile time
(`getPlayersData(xuid)`). -/
def compileBP (env : Env) (pd : PlayerData) (region : Option RegionM) (str : String) :
    Option BPPattern :=
  if cppFind str "#clipboard" then
    if !pd.clipboardUsed then some {}
    else
      let base : Pos :=
        match region with
        | some reg => if cppFind str "@c" then reg.center else reg.minCorner
        | none => ⟨0, 0, 0⟩
      match intScanStr str with
      | none => none
      | some l => some { clipboard := true, bias := applyOffsets base l }
  else
    let sc := scanP str
    (buildGoP env (SplitStrWithPattern sc.1 ",") sc.2).map (fun es => { entries := es })

/-- `Percents::getPercents` (identical in both files): a constant weight
or one evaluator call on the formula.  The variables map is received by
const reference — the ambient state comes back unchanged. -/
def Percents.getPercents (env : Env) (pc : Percents) (st : EngState) : ℚ × EngState :=
  if pc.isNum then (pc.value, st) else (env.eval pc.function st.vars, st)

/-- `RawBlock::getBlock` of `BlockListPattern.cpp`: constant entries
return the compiled block; `-2140000001` resolves through the runtime
palette; `-2140000002` keeps the stored name; `INT_MIN` evaluates and
rounds the id formula; `-2140000000` reads as id 0; the data value is
resolved the same way. -/
def rawGetBlockL (env : Env) (rb : RawBlock) (st : EngState) : Block × EngState :=
  if rb.constBlock then (rb.block, st)
  else if rb.blockId = -2140000001 then
    (Block.palette (toUInt32Wrap (cround (env.eval rb.blockIdfunc st.vars))), st)
  else
    let blockName :=
      if rb.blockId = -2140000002 then rb.blockIdfunc
      else
        env.getBlockName
          (if rb.blockId = INT_MIN then cround (env.eval rb.blockIdfunc st.vars)
           else if rb.blockId = -2140000000 then 0 else rb.blockId)
    let mData :=
      if rb.blockData = INT_MIN then cround (env.eval rb.blockDatafunc st.vars)
      else if rb.blockData = -2140000000 then 0 else rb.blockData
    (Block.create blockName mData, st)

/-- `RawBlock::getBlock` of `BlockPattern.cpp`.  The source tests
`if (blockId = -2140000001)` — an assignment, not a comparison — so for
every non-constant entry the condition holds and the palette branch is
taken; the legacy-id/name code below it (lines 38–52) is unreachable.
(The assignment also overwrites the stored `blockId`; no operation
modelled here reads it afterwards.) -/
def rawGetBlockP (env : Env) (rb : RawBlock) (st : EngState) : Block × EngState :=
  if rb.constBlock then (rb.block, st)
  else (Block.palette (toUInt32Wrap (cround (env.eval rb.blockIdfunc st.vars))), st)

/-- The clamped per-entry weights `max(percents[i].getPercents(...), 0.0)`. -/
def clampedWeights (env : Env) (entries : List (Percents × RawBlock)) (st : EngState) : List ℚ :=
  entries.map (fun e => max (Percents.getPercents env e.1 st).1 0)

/-- The selection loop over all entries but the last: accumulate the
running sum and return the first index with `random <= sum`; falling off
the loop returns the index one past the scanned prefix (the last
entry). -/
def pickGo (r : ℚ) : List ℚ → ℚ → ℕ → ℕ
  | [], _, i => i
  | w :: ws, sum, i => if r ≤ sum + w then i else pickGo r ws (sum + w) (i + 1)

/-- `getRawBlock` (identical in both files): evaluate and clamp all
weights, return no selection when the total is below `1e-32`, otherwise
draw one RNG value and walk the running sum (over all entries but the
last, the last being the unconditional remainder). -/
def selectRaw (env : Env) (entries : List (Percents × RawBlock)) (st : EngState) :
    Option RawBlock × EngState :=
  let ws := clampedWeights env entries st
  let total := ws.sum
  if total < 1 / 10 ^ 32 then (none, st)
  else
    let r := st.rng.headD 0 * total
    (some (entries.getD (pickGo r ws.dropLast 0 0) default).2, { st with rng := st.rng.tail })

/-- `BlockListPattern::getRawBlock`. -/
def BLPattern.getRawBlock (env : Env) (p : BLPattern) (st : EngState) :
    Option RawBlock × EngState :=
  selectRaw env p.entries st

/-- `BlockPattern::getRawBlock`. -/
def BPPattern.getRawBlock (env : Env) (p : BPPattern) (st : EngState) :
    Option RawBlock × EngState :=
  selectRaw env p.entries st

/-- Result of running a source operation that may dereference a null
pointer. -/
inductive ExecResult (α : Type)
  | ok (a : α)
  | nullDeref
deriving DecidableEq, Repr

/-- `BlockListPattern::getBlock`: a null selection is checked and
propagated as `nullptr` (`none`). -/
def BLPattern.getBlock (env : Env) (p : BLPattern) (st : EngState) :
    Option Block × EngState :=
  match BLPattern.getRawBlock env p st with
  | (none, st') => (none, st')
  | (some rb, st') =>
    let (b, st'') := rawGetBlockL env rb st'
    (some b, st'')

/-- `BlockPattern::getBlock`:
`return getRawBlock(variables, funcs)->getBlock(variables, funcs);` —
the selection result is dereferenced without a null check, so a null
selection is a null-pointer dereference. -/
def BPPattern.getBlock (env : Env) (p : BPPattern) (st : EngState) :
    ExecResult Block × EngState :=
  match BPPattern.getRawBlock env p st with
  | (none, st') => (ExecResult.nullDeref, st')
  | (some rb, st') =>
    let (b, st'') := rawGetBlockP env rb st'
    (ExecResult.ok b, st'')

/-- The observable effect of one `setBlock` call, i.e. what the engine
asks its collaborators to do: nothing (the early `return false`), a
delegation to the referenced clipboard's cell at the given local
position (`clipboard->getSetLoop(pos - bias).setBlock(...)`), or a
placement of a block, its companion layer, and an optional block-entity
payload (`setBlockSimple` plus the best-effort entity path). -/
inductive SetEffect
  | noop
  | clip (localPos : Pos)
  | place (pos : Pos) (b ex : Block) (be : Option String)
deriving DecidableEq, Repr

/-- `BlockListPattern::setBlock`: a null selection returns `false`
without touching the world; otherwise the selected raw block is resolved
and handed to `setBlockSimple` together with its companion block, and
the block-entity payload is applied when present and supported. -/
def BLPattern.setBlock (env : Env) (p : BLPattern) (pd : PlayerData) (pos : Pos)
    (st : EngState) : SetEffect × EngState :=
  match BLPattern.getRawBlock env p st with
  | (none, st') => (SetEffect.noop, st')
  | (some rb, st') =>
    let (b, st'') := rawGetBlockL env rb st'
    (SetEffect.place pos b rb.exBlock
      (if rb.hasBE && env.hasBlockEntityB b && rb.blockEntity ≠ "" then some rb.blockEntity
       else none), st'')

/-- `BlockPattern::setBlock`: a compiled clipboard reference delegates
unconditionally to the stored clipboard pointer at cell `pos - bias`
(the player's data at resolution time, `pd`, is not consulted);
otherwise as the weighted path, with the null selection checked. -/
def BPPattern.setBlock (env : Env) (p : BPPattern) (pd : PlayerData) (pos : Pos)
    (st : EngState) : SetEffect × EngState :=
  if p.clipboard then (SetEffect.clip (pos - p.bias), st)
  else
    match BPPattern.getRawBlock env p st with
    | (none, st') => (SetEffect.noop, st')
    | (some rb, st') =>
      let (b, st'') := rawGetBlockP env rb st'
      (SetEffect.place pos b rb.exBlock
        (if rb.hasBE && env.hasBlockEntityB b && rb.blockEntity ≠ "" then some rb.blockEntity
         else none), st'')

/-- Cumulative sums of a weight list, in order, starting from `sum`. -/
def runSums (sum : ℚ) : List ℚ → List ℚ
  | [] => []
  | w :: ws => (sum + w) :: runSums (sum + w) ws

/-- Index of the first list element satisfying `r ≤ ·`, if any. -/
def firstHit (r : ℚ) : List ℚ → Option ℕ
  | [] => none
  | s :: ss => if r ≤ s then some 0 else (firstHit r ss).map (· + 1)

/-- The selection rule in the words of the specification: walk entries
in compile order accumulating a running sum, select the first entry
whose cumulative sum is `≥ r`; if no entry among all but the last
satisfies the condition, select the last entry unconditionally. -/
def specSelect (ws : List ℚ) (r : ℚ) : ℕ :=
  (firstHit r (runSums 0 ws.dropLast)).getD (ws.length - 1)

/-- A fixed assignment of the external collaborators, used to
instantiate the universally quantified theorems on concrete inputs. -/
def envW : Env := {
  eval := fun _ _ => 0,
  getBlockName := fun i => if i = 7 then "blk7" else "blkX",
  getBlockId := fun _ => 42,
  isBEBlock := fun _ => false,
  isJEBlock := fun _ => false,
  javaBlockMap := fun _ => Block.ext 1,
  typeNameOf := fun _ => "mapped",
  variantOf := fun _ => 3,
  hasBlockEntityB := fun _ => false,
  snbtToBinary := fun s => s,
  hand := some (Block.ext 5) }

/-- Collaborators whose evaluator sends the formula `"7"` to `7`. -/
def envW7 : Env := { envW with eval := fun s _ => if s = "7" then 7 else 0 }

/-- Collaborators whose legacy Java-name table recognizes every name. -/
def envWJ : Env := { envW with isJEBlock := fun _ => true }

/-- A concrete ambient state. -/
def stW : EngState := ⟨[("x", 1)], [0]⟩

/-- A concrete position. -/
def posW : Pos := ⟨3, 4, 5⟩

/-- A concrete region slice (center `(15,20,30)`, minimum `(10,20,30)`). -/
def regW : RegionM := ⟨⟨15, 20, 30⟩, ⟨10, 20, 30⟩⟩

lemma length_runSums (sum : ℚ) (l : List ℚ) : (runSums sum l).length = l.length := by
  induction l generalizing sum with
  | nil => rfl
  | cons w ws ih => simp [runSums, ih]

lemma firstHit_lt (r : ℚ) (l : List ℚ) (j : ℕ) (h : firstHit r l = some j) :
    j < l.length := by
  induction l generalizing j with
  | nil => simp [firstHit] at h
  | cons s ss ih =>
    simp only [firstHit] at h
    split at h
    · cases h
      simp
    · cases hh : firstHit r ss with
      | none => rw [hh] at h; cases h
      | some k =>
        rw [hh] at h
        simp at h
        have := ih k hh
        rw [List.length_cons]
        omega

lemma pickGo_eq (r : ℚ) (l : List ℚ) : ∀ (sum : ℚ) (i : ℕ),
    pickGo r l sum i = i + (firstHit r (runSums sum l)).getD l.length := by
  induction l with
  | nil => intro sum i; simp [pickGo, runSums, firstHit]
  | cons w ws ih =>
    intro sum i
    simp only [pickGo, runSums, firstHit]
    split
    · simp
    · rw [ih (sum + w) (i + 1)]
      cases hh : firstHit r (runSums (sum + w) ws) with
      | none => simp; omega
      | some j => simp; omega

lemma specSelect_lt (ws : List ℚ) (r : ℚ) (h : ws ≠ []) : specSelect ws r < ws.length := by
  have hlen : 0 < ws.length := List.length_pos.mpr h
  unfold specSelect
  cases hh : firstHit r (runSums 0 ws.dropLast) with
  | none => simp; omega
  | some j =>
    have := firstHit_lt r _ j hh
    rw [length_runSums, List.length_dropLast] at this
    simp
    omega

lemma pick_eq_specSelect (ws : List ℚ) (r : ℚ) :
    pickGo r ws.dropLast 0 0 = specSelect ws r := by
  rw [pickGo_eq r ws.dropLast 0 0]
  unfold specSelect
  rw [List.length_dropLast]
  simp

/-- C1: whenever the clamped weight total is at least `1e-32`, the
weighted selector of `getRawBlock` (identical in `BlockPattern.cpp` and
`BlockListPattern.cpp`) returns exactly one entry, namely the one the
specification describes: weights are clamped to `max(0, value)`, the
entries are walked in compile order accumulating a running sum with
`r = uniform(0,1) * total`, the first entry whose cumulative sum is
`≥ r` is selected, and if none among all but the last satisfies the
condition the last entry is selected unconditionally; exactly one RNG
draw is consumed and the variables map is untouched. -/
theorem selector_follows_spec_c1 (env : Env) (entries : List (Percents × RawBlock))
    (st : EngState)
    (h : 1 / 10 ^ 32 ≤ (clampedWeights env entries st).sum) :
    specSelect (clampedWeights env entries st)
        (st.rng.headD 0 * (clampedWeights env entries st).sum) < entries.length ∧
    selectRaw env entries st =
      (some ((entries.getD
          (specSelect (clampedWeights env entries st)
            (st.rng.headD 0 * (clampedWeights env entries st).sum)) default).2),
        { st with rng := st.rng.tail }) := by
  have hne : entries ≠ [] := by
    intro he
    subst he
    simp [clampedWeights] at h
    norm_num at h
  have hlen : (clampedWeights env entries st).length = entries.length := by
    simp [clampedWeights]
  refine ⟨?_, ?_⟩
  · have := specSelect_lt (clampedWeights env entries st)
      (st.rng.headD 0 * (clampedWeights env entries st).sum)
      (by simp [clampedWeights, hne])
    omega
  · unfold selectRaw
    rw [if_neg (not_lt.mpr h)]
    simp only [pick_eq_specSelect]

/-- Witness for C1: the single-default-entry pattern at a concrete state
satisfies the hypothesis and the conclusion. -/
theorem selector_follows_spec_c1_w :
    (1 / 10 ^ 32 ≤ (clampedWeights envW [({}, {})] stW).sum) ∧
    (specSelect (clampedWeights envW [({}, {})] stW)
        (stW.rng.headD 0 * (clampedWeights envW [({}, {})] stW).sum) < 1 ∧
      selectRaw envW [({}, {})] stW =
        (some (([(({} : Percents), ({} : RawBlock))].getD
            (specSelect (clampedWeights envW [({}, {})] stW)
              (stW.rng.headD 0 * (clampedWeights envW [({}, {})] stW).sum)) default).2),
          { stW with rng := stW.rng.tail })) :=
  ⟨by norm_num [clampedWeights, Percents.getPercents],
   selector_follows_spec_c1 envW [({}, {})] stW
     (by norm_num [clampedWeights, Percents.getPercents])⟩

lemma selectRaw_vars (env : Env) (es : List (Percents × RawBlock)) (st : EngState) :
    (selectRaw env es st).2.vars = st.vars := by
  unfold selectRaw
  dsimp only
  split <;> rfl

lemma rawGetBlockL_state (env : Env) (rb : RawBlock) (st : EngState) :
    (rawGetBlockL env rb st).2 = st := by
  unfold rawGetBlockL
  split_ifs <;> rfl

lemma rawGetBlockP_state (env : Env) (rb : RawBlock) (st : EngState) :
    (rawGetBlockP env rb st).2 = st := by
  unfold rawGetBlockP
  split_ifs <;> rfl

/-- C8: the resolve/apply operations never mutate the caller-supplied
variables map — after any `getPercents`, `getBlock` or `setBlock` call
the map in the ambient state is the one passed in, entry for entry
(only the RNG stream component of the state advances). -/
theorem vars_not_mutated_c8 (env : Env) (pc : Percents) (p : BLPattern) (pd : PlayerData)
    (pos : Pos) (st : EngState) :
    (Percents.getPercents env pc st).2.vars = st.vars ∧
    (BLPattern.getBlock env p st).2.vars = st.vars ∧
    (BLPattern.setBlock env p pd pos st).2.vars = st.vars := by
  refine ⟨?_, ?_, ?_⟩
  · unfold Percents.getPercents
    split <;> rfl
  · have hv := selectRaw_vars env p.entries st
    unfold BLPattern.getBlock BLPattern.getRawBlock
    rcases hsel : selectRaw env p.entries st with ⟨o, st'⟩
    rw [hsel] at hv
    cases o with
    | none => simpa using hv
    | some rb => simpa [rawGetBlockL_state] using hv
  · have hv := selectRaw_vars env p.entries st
    unfold BLPattern.setBlock BLPattern.getRawBlock
    rcases hsel : selectRaw env p.entries st with ⟨o, st'⟩
    rw [hsel] at hv
    cases o with
    | none => simpa using hv
    | some rb => simpa [rawGetBlockL_state] using hv

lemma getBlock_single_const (env : Env) (hB : Bool) (rb : RawBlock) (st : EngState)
    (hc : rb.constBlock = true) :
    (BLPattern.getBlock env ⟨hB, [({}, rb)]⟩ st).1 = some rb.block := by
  have hif : ¬ ((100 : ℚ) < (10 ^ 32)⁻¹) := by norm_num
  simp [BLPattern.getBlock, BLPattern.getRawBlock, selectRaw, clampedWeights,
    Percents.getPercents, rawGetBlockL, hc, pickGo, hif]

/-- C7: a pattern compiled from the exact string `"#hand"` resolves, at
any two evaluation contexts (variables and RNG state), to the same block
identity — the one captured from the invoking actor's hand at compile
time (air when no hand block was available). -/
theorem hand_snapshot_c7 (env : Env) (p : BLPattern) (st₁ st₂ : EngState)
    (hc : compileBLP env "#hand" = some p) :
    (BLPattern.getBlock env p st₁).1 = some (env.hand.getD Block.air) ∧
    (BLPattern.getBlock env p st₁).1 = (BLPattern.getBlock env p st₂).1 := by
  have hp : p = { isHand := true, entries := [({}, { block := env.hand.getD Block.air })] } := by
    simpa [compileBLP] using hc.symm
  subst hp
  rw [getBlock_single_const env _ _ st₁ rfl, getBlock_single_const env _ _ st₂ rfl]
  exact ⟨rfl, rfl⟩

/-- Witness for C7: with the fixed collaborators (hand block `ext 5`)
the compiled `"#hand"` pattern resolves to `ext 5` at two distinct
states. -/
theorem hand_snapshot_c7_w :
    compileBLP envW "#hand" =
      some { isHand := true, entries := [({}, { block := Block.ext 5 })] } ∧
    ((BLPattern.getBlock envW
        { isHand := true, entries := [({}, { block := Block.ext 5 })] } stW).1 =
          some (envW.hand.getD Block.air) ∧
      (BLPattern.getBlock envW
        { isHand := true, entries := [({}, { block := Block.ext 5 })] } stW).1 =
        (BLPattern.getBlock envW
          { isHand := true, entries := [({}, { block := Block.ext 5 })] } ⟨[], [1]⟩).1) :=
  ⟨rfl, hand_snapshot_c7 envW _ stW ⟨[], [1]⟩ rfl⟩

/-- C10: an identifier entry without `minecraft:` is namespaced before
registry lookup, so `"stone"` and `"minecraft:stone"` compile to equal
patterns and resolve identically in every context. -/
theorem namespace_default_c10 (env : Env) (st : EngState) :
    compileBLP env "stone" = compileBLP env "minecraft:stone" ∧
    (compileBLP env "stone").map (fun p => (BLPattern.getBlock env p st).1) =
      (compileBLP env "minecraft:stone").map (fun p => (BLPattern.getBlock env p st).1) := by
  have h : compileBLP env "stone" = compileBLP env "minecraft:stone" := rfl
  exact ⟨h, by rw [h]⟩

/-- C4 (counterexample): compiling the unterminated-brace string
`"{stone"` does not fail — it silently yields a one-entry pattern whose
single structured-tag entry wraps the whole unterminated span. -/
theorem unterminated_brace_c4_cex :
    (compileBLP envW "\x7bstone").isSome = true ∧
    (compileBLP envW "\x7bstone").map (fun p => p.entries.length) = some 1 ∧
    (compileBLP envW "\x7bstone").map (fun p => p.entries.map (fun e => e.2.block)) =
      some [Block.fromSNBT "\x7bstone"] :=
  ⟨rfl, rfl, rfl⟩

/-- C4 (amended): for every environment, compiling `"{stone"` succeeds:
the brace scan consumes to end of string and produces exactly one
structured-tag entry holding the unterminated span `"{stone"`, handed to
the SNBT parser; no malformed-pattern error is raised anywhere in the
constructors. -/
theorem unterminated_brace_c4 (env : Env) :
    compileBLP env "\x7bstone" =
      some { entries := [({}, { blockId := INT_MIN, blockData := INT_MIN,
                                block := Block.fromSNBT "\x7bstone" })] } := rfl

/-- C2: for the all-zero-weight pattern `"'0'%stone"` (in a context
where the formula `"0"` evaluates to `0`), `BlockListPattern` behaves as
claimed — no selection, `setBlock` returns `false` without touching the
world, `getBlock` yields `nullptr` — but `BlockPattern::getBlock`
dereferences the null selection returned by `getRawBlock` without a
check, a null-pointer dereference (crash), contradicting the "no crash"
part of the claim. -/
theorem zero_weight_c2 (env : Env) (pd : PlayerData) (pos : Pos) (st : EngState)
    (h : env.eval "0" st.vars = 0) :
    ∃ pL pB, compileBLP env "'0'%stone" = some pL ∧
      compileBP env pd none "'0'%stone" = some pB ∧
      BLPattern.setBlock env pL pd pos st = (SetEffect.noop, st) ∧
      (BLPattern.getBlock env pL st).1 = none ∧
      (BPPattern.getBlock env pB st).1 = ExecResult.nullDeref := by
  have hpos : (0 : ℚ) < (10 ^ 32)⁻¹ := by norm_num
  have hL : compileBLP env "'0'%stone" = some { entries :=
      [({ isNum := false, function := "0" },
        finalizeConstL env { blockId := -2140000002, blockIdfunc := "minecraft:stone" })] } := rfl
  have hP : compileBP env pd none "'0'%stone" = some { entries :=
      [({ isNum := false, function := "0" },
        finalizeConstP env { blockId := env.getBlockId "minecraft:stone" })] } := rfl
  refine ⟨_, _, hL, hP, ?_, ?_, ?_⟩
  · simp [BLPattern.setBlock, BLPattern.getRawBlock, selectRaw, clampedWeights,
      Percents.getPercents, h, hpos]
  · simp [BLPattern.getBlock, BLPattern.getRawBlock, selectRaw, clampedWeights,
      Percents.getPercents, h, hpos]
  · simp [BPPattern.getBlock, BPPattern.getRawBlock, selectRaw, clampedWeights,
      Percents.getPercents, h, hpos]

/-- Witness for C2: with the fixed collaborators (evaluator constantly
`0`) the compiled `"'0'%stone"` patterns exhibit exactly the behavior of
the theorem at a concrete state. -/
theorem zero_weight_c2_w :
    envW.eval "0" stW.vars = 0 ∧
    (∃ pL pB, compileBLP envW "'0'%stone" = some pL ∧
      compileBP envW ⟨true⟩ none "'0'%stone" = some pB ∧
      BLPattern.setBlock envW pL ⟨true⟩ posW stW = (SetEffect.noop, stW) ∧
      (BLPattern.getBlock envW pL stW).1 = none ∧
      (BPPattern.getBlock envW pB stW).1 = ExecResult.nullDeref) :=
  ⟨rfl, zero_weight_c2 envW ⟨true⟩ posW stW rfl⟩

/-- C3: for an entry compiled from the single-quoted formula `"'7'"` (in
a context where the formula evaluates to `7`), `BlockListPattern`
resolves as claimed — the result is rounded and used as a legacy numeric
block id looked up by name — but `BlockPattern.cpp`'s
`RawBlock::getBlock` tests `if (blockId = -2140000001)`, an assignment
that always holds, so the same entry resolves through the runtime
palette at index 7 instead. -/
theorem formula_id_c3 (env : Env) (pd : PlayerData) (st : EngState)
    (h : env.eval "7" st.vars = 7) :
    ∃ pL pB, compileBLP env "'7'" = some pL ∧
      compileBP env pd none "'7'" = some pB ∧
      (BLPattern.getBlock env pL st).1 = some (Block.create (env.getBlockName 7) 0) ∧
      (BPPattern.getBlock env pB st).1 = ExecResult.ok (Block.palette 7) := by
  have hif : ¬ ((100 : ℚ) < (10 ^ 32)⁻¹) := by norm_num
  have h7 : cround (env.eval "7" st.vars) = 7 := by
    rw [h]
    unfold cround
    rw [if_pos (by norm_num)]
    rw [Int.floor_eq_iff]
    norm_num
  have hL : compileBLP env "'7'" = some { entries :=
      [({}, { blockId := INT_MIN, constBlock := false, blockIdfunc := "7" })] } := rfl
  have hP : compileBP env pd none "'7'" = some { entries :=
      [({}, { blockId := INT_MIN, constBlock := false, blockIdfunc := "7" })] } := rfl
  refine ⟨_, _, hL, hP, ?_, ?_⟩
  · norm_num [BLPattern.getBlock, BLPattern.getRawBlock, selectRaw, clampedWeights,
      Percents.getPercents, rawGetBlockL, pickGo, hif, h7, INT_MIN]
  · norm_num [BPPattern.getBlock, BPPattern.getRawBlock, selectRaw, clampedWeights,
      Percents.getPercents, rawGetBlockP, pickGo, hif, h7, toUInt32Wrap]
    rfl

/-- Witness for C3: with the fixed collaborators (evaluator sending
`"7"` to `7`, registry naming id 7 `"blk7"`) the two compiled `"'7'"`
patterns resolve to the by-name block and to palette index 7
respectively. -/
theorem formula_id_c3_w :
    envW7.eval "7" stW.vars = 7 ∧
    (∃ pL pB, compileBLP envW7 "'7'" = some pL ∧
      compileBP envW7 ⟨true⟩ none "'7'" = some pB ∧
      (BLPattern.getBlock envW7 pL stW).1 = some (Block.create (envW7.getBlockName 7) 0) ∧
      (BPPattern.getBlock envW7 pB stW).1 = ExecResult.ok (Block.palette 7)) :=
  ⟨rfl, formula_id_c3 envW7 ⟨true⟩ stW rfl⟩

lemma Pos.sub_def (a b : Pos) : a - b = ⟨a.x - b.x, a.y - b.y, a.z - b.z⟩ := rfl

lemma applyOffsets_eq (b : Pos) (l : List ℤ) :
    applyOffsets b l = ⟨b.x - l.getD 0 0, b.y - l.getD 1 0, b.z - l.getD 2 0⟩ := by
  cases b
  rcases l with _ | ⟨a, _ | ⟨a2, _ | ⟨a3, t⟩⟩⟩ <;> simp [applyOffsets]

/-- C5: a `"#clipboard"` pattern compiled with a live clipboard and a
region gets bias = region bounding-box minimum corner (or region center
when the string contains `"@c"`), offset (subtracted) componentwise by
the signed-integer triple scanned from the string; resolving at world
position `p` delegates to the clipboard cell at `p - bias`, so
resolving at `p = bias` reads local cell `(0,0,0)`. -/
theorem clipboard_bias_c5 (env : Env) (pd pdR : PlayerData) (reg : RegionM) (str : String)
    (pos : Pos) (st : EngState) (l : List ℤ)
    (hu : pd.clipboardUsed = true)
    (hfind : cppFind str "#clipboard" = true)
    (hscan : intScanStr str = some l) :
    ∃ pat, compileBP env pd (some reg) str = some pat ∧
      pat.bias = ⟨(if cppFind str "@c" then reg.center else reg.minCorner).x - l.getD 0 0,
                  (if cppFind str "@c" then reg.center else reg.minCorner).y - l.getD 1 0,
                  (if cppFind str "@c" then reg.center else reg.minCorner).z - l.getD 2 0⟩ ∧
      (BPPattern.setBlock env pat pdR pos st).1 = SetEffect.clip (pos - pat.bias) ∧
      (BPPattern.setBlock env pat pdR pat.bias st).1 = SetEffect.clip ⟨0, 0, 0⟩ := by
  refine ⟨{ clipboard := true,
            bias := applyOffsets (if cppFind str "@c" then reg.center else reg.minCorner) l },
          ?_, ?_, ?_, ?_⟩
  · simp [compileBP, hfind, hu, hscan]
  · rw [applyOffsets_eq]
  · simp [BPPattern.setBlock]
  · simp [BPPattern.setBlock, Pos.sub_def]

/-- Witness for C5: the concrete pattern `"#clipboard@c1 2 3"` against
the region centered at `(15,20,30)` gives bias `(14,18,27)` and reads
cell `(0,0,0)` when resolved at the bias. -/
theorem clipboard_bias_c5_w :
    (⟨true⟩ : PlayerData).clipboardUsed = true ∧
    cppFind "#clipboard@c1 2 3" "#clipboard" = true ∧
    intScanStr "#clipboard@c1 2 3" = some [1, 2, 3] ∧
    (∃ pat, compileBP envW ⟨true⟩ (some regW) "#clipboard@c1 2 3" = some pat ∧
      pat.bias = ⟨(if cppFind "#clipboard@c1 2 3" "@c" then regW.center else regW.minCorner).x -
                    [(1 : ℤ), 2, 3].getD 0 0,
                  (if cppFind "#clipboard@c1 2 3" "@c" then regW.center else regW.minCorner).y -
                    [(1 : ℤ), 2, 3].getD 1 0,
                  (if cppFind "#clipboard@c1 2 3" "@c" then regW.center else regW.minCorner).z -
                    [(1 : ℤ), 2, 3].getD 2 0⟩ ∧
      (BPPattern.setBlock envW pat ⟨false⟩ posW stW).1 = SetEffect.clip (posW - pat.bias) ∧
      (BPPattern.setBlock envW pat ⟨false⟩ pat.bias stW).1 = SetEffect.clip ⟨0, 0, 0⟩) :=
  ⟨rfl, rfl, rfl, clipboard_bias_c5 envW ⟨true⟩ ⟨false⟩ regW "#clipboard@c1 2 3" posW stW
    [1, 2, 3] rfl rfl rfl⟩

/-- C6 (counterexample): clipboard emptiness is a compile-time snapshot,
not re-checked at resolution.  A `"#clipboard"` pattern compiled while
the clipboard was empty resolves to a no-op even when the clipboard has
content at resolution time, and one compiled while the clipboard had
content delegates to the clipboard even when it is empty at resolution
time — the resolution outcome depends only on the compile-time state. -/
theorem clipboard_snapshot_c6_cex :
    compileBP envW ⟨false⟩ none "#clipboard" = some {} ∧
    (BPPattern.setBlock envW {} ⟨true⟩ posW stW).1 = SetEffect.noop ∧
    compileBP envW ⟨true⟩ none "#clipboard" =
      some { clipboard := true, bias := ⟨0, 0, 0⟩ } ∧
    (BPPattern.setBlock envW { clipboard := true, bias := ⟨0, 0, 0⟩ } ⟨false⟩ posW stW).1 =
      SetEffect.clip posW ∧
    SetEffect.clip posW ≠ SetEffect.noop := by
  have hpos : (0 : ℚ) < (10 ^ 32)⁻¹ := by norm_num
  refine ⟨rfl, ?_, rfl, ?_, by decide⟩
  · simp [BPPattern.setBlock, BPPattern.getRawBlock, selectRaw, clampedWeights, hpos]
  · simp [BPPattern.setBlock, Pos.sub_def]

/-- C6 (amended): for every string containing `"#clipboard"`, the
emptiness check happens once, in the constructor: compiled against an
empty clipboard the pattern is the default empty weighted list, whose
`setBlock` returns `false` at every position and resolution-time state;
compiled against a live clipboard it stores the clipboard reference and
`setBlock` always delegates to the clipboard cell at `pos - bias`,
whatever the player's clipboard state at resolution time. -/
theorem clipboard_snapshot_c6 (env : Env) (reg : Option RegionM) (str : String)
    (pdR : PlayerData) (pos : Pos) (st : EngState) (l : List ℤ)
    (hfind : cppFind str "#clipboard" = true)
    (hscan : intScanStr str = some l) :
    (compileBP env ⟨false⟩ reg str = some {} ∧
      (BPPattern.setBlock env ({} : BPPattern) pdR pos st).1 = SetEffect.noop) ∧
    ∃ pat, compileBP env ⟨true⟩ reg str = some pat ∧ pat.clipboard = true ∧
      (BPPattern.setBlock env pat pdR pos st).1 = SetEffect.clip (pos - pat.bias) := by
  have hpos : (0 : ℚ) < (10 ^ 32)⁻¹ := by norm_num
  refine ⟨⟨?_, ?_⟩, ?_⟩
  · simp [compileBP, hfind]
  · simp [BPPattern.setBlock, BPPattern.getRawBlock, selectRaw, clampedWeights, hpos]
  · refine ⟨{ clipboard := true,
              bias := applyOffsets
                (match reg with
                 | some r => if cppFind str "@c" then r.center else r.minCorner
                 | none => ⟨0, 0, 0⟩) l }, ?_, rfl, ?_⟩
    · simp [compileBP, hfind, hscan]
    · simp [BPPattern.setBlock]

/-- Witness for C6 (amended): concrete instantiation at `"#clipboard"`
with no region. -/
theorem clipboard_snapshot_c6_w :
    cppFind "#clipboard" "#clipboard" = true ∧
    intScanStr "#clipboard" = some [] ∧
    ((compileBP envW ⟨false⟩ none "#clipboard" = some {} ∧
      (BPPattern.setBlock envW ({} : BPPattern) ⟨true⟩ posW stW).1 = SetEffect.noop) ∧
    ∃ pat, compileBP envW ⟨true⟩ none "#clipboard" = some pat ∧ pat.clipboard = true ∧
      (BPPattern.setBlock envW pat ⟨true⟩ posW stW).1 = SetEffect.clip (posW - pat.bias)) :=
  ⟨rfl, rfl, clipboard_snapshot_c6 envW none "#clipboard" ⟨true⟩ posW stW [] rfl rfl⟩

/-- C9: for every identifier-based entry that goes through the
legacy-name mapping (an entry whose term takes the `%block` branch, not
an `rt<digits>` palette reference, without a data-value formula, whose
namespaced name is not a known Bedrock name but is a known Java name),
if the mapped name encodes a waterlogged state
(contains `"waterlogged=true"`) then compilation forces the entry's
companion (second-layer) block to water. -/
theorem waterlog_companion_c9 (env : Env) (term : String) (raws : List String)
    (e : Percents × RawBlock) (rest : List String)
    (hsucc : buildOneL env term raws = some (e, rest))
    (hnum : cppFind (normTerm term) "%num" = false)
    (hblock : cppFind (normTerm term) "%block" = true)
    (hdata : cppFind (normTerm term) ":funciton" = false)
    (hrt : rtCheck (nameTok term raws) = false)
    (hbe : env.isBEBlock (mappedName (nameTok term raws)) = false)
    (hje : env.isJEBlock (mappedName (nameTok term raws)) = true)
    (hwl : cppFind (mappedName (nameTok term raws)) "waterlogged=true" = true) :
    e.2.exBlock = Block.water := by
  obtain ⟨ep, erb⟩ := e
  rcases hws : weightStep term raws with _ | ⟨pc, raws1⟩
  · have hnone : buildOneL env term raws = none := by
      unfold buildOneL
      rw [hws]
    rw [hnone] at hsucc
    cases hsucc
  · have hr1 : raws1 = if cppFind term "%" then raws.tail else raws := by
      unfold weightStep at hws
      cases hp : cppFind term "%"
      · rw [hp] at hws
        simp at hws
        simp [hws, hp]
      · rw [hp] at hws
        cases hq : cppFind term "num%"
        · rw [hq] at hws
          simp at hws
          simp [hws, hp, hq]
        · rw [hq] at hws
          rcases hsd : stodOpt (raws.headD "").toList with _ | v
          · rw [hsd] at hws
            simp at hws
          · rw [hsd] at hws
            simp at hws
            simp [hws, hp, hq]
    have hnm2 : raws1.head?.getD "" = nameTok term raws := by
      rw [hr1]
      unfold nameTok
      cases hp : cppFind term "%" <;> simp [hp]
    have hrt2 : rtCheck (raws1.head?.getD "") = false := by rw [hnm2]; exact hrt
    have hbe2 : env.isBEBlock (mappedName (raws1.head?.getD "")) = false := by
      rw [hnm2]; exact hbe
    have hje2 : env.isJEBlock (mappedName (raws1.head?.getD "")) = true := by
      rw [hnm2]; exact hje
    have hwl2 : cppFind (mappedName (raws1.head?.getD "")) "waterlogged=true" = true := by
      rw [hnm2]; exact hwl
    have hentry : entryStepL env (normTerm term) raws1 =
        some ({ blockId := -2140000002, blockIdfunc := mappedName (raws1.head?.getD "") },
              raws1.tail, false) := by
      simp [entryStepL, hnum, hblock, hrt2]
    cases hd : cppFind (normTerm term) ":num"
    · have hall : buildOneL env term raws =
          some ((pc, finalizeConstL env
            { blockId := -2140000002, blockIdfunc := mappedName (raws1.head?.getD "") }),
            raws1.tail) := by
        unfold buildOneL
        rw [hws]
        dsimp only
        rw [hentry]
        simp [dataStep, hd, hdata]
      rw [hall] at hsucc
      simp only [Option.some.injEq, Prod.mk.injEq] at hsucc
      rw [← hsucc.1.2]
      simp [finalizeConstL, hbe2, hje2, hwl2]
    · rcases hsti : stoiOpt (raws1[1]?.getD "").data with _ | d
      · have hall : buildOneL env term raws = none := by
          unfold buildOneL
          rw [hws]
          dsimp only
          rw [hentry]
          simp [dataStep, hd, hsti]
        rw [hall] at hsucc
        cases hsucc
      · have hall : buildOneL env term raws =
            some ((pc, finalizeConstL env
              { blockId := -2140000002, blockData := d,
                blockIdfunc := mappedName (raws1.head?.getD "") }),
              raws1.tail.tail) := by
          unfold buildOneL
          rw [hws]
          dsimp only
          rw [hentry]
          simp [dataStep, hd, hsti]
        rw [hall] at hsucc
        simp only [Option.some.injEq, Prod.mk.injEq] at hsucc
        rw [← hsucc.1.2]
        simp [finalizeConstL, hbe2, hje2, hwl2]

/-- Witness for C9: the weightless term `"block"` with name token
`"oak[waterlogged=true]"` (scanned from the pattern
`"oak[waterlogged=true]"`) compiles, with Java-name-recognizing
collaborators, to an entry whose companion block is water. -/
theorem waterlog_companion_c9_w :
    buildOneL envWJ "block" ["oak[waterlogged=true]"] =
      some ((({} : Percents),
        ({ blockId := -2140000002, blockData := 3, blockIdfunc := "mapped",
           constBlock := true, block := Block.ext 1,
           exBlock := Block.water } : RawBlock)), []) ∧
    cppFind (normTerm "block") "%num" = false ∧
    cppFind (normTerm "block") "%block" = true ∧
    cppFind (normTerm "block") ":funciton" = false ∧
    rtCheck (nameTok "block" ["oak[waterlogged=true]"]) = false ∧
    envWJ.isBEBlock (mappedName (nameTok "block" ["oak[waterlogged=true]"])) = false ∧
    envWJ.isJEBlock (mappedName (nameTok "block" ["oak[waterlogged=true]"])) = true ∧
    cppFind (mappedName (nameTok "block" ["oak[waterlogged=true]"])) "waterlogged=true" = true ∧
    (({ blockId := -2140000002, blockData := 3, blockIdfunc := "mapped",
        constBlock := true, block := Block.ext 1,
        exBlock := Block.water } : RawBlock)).exBlock = Block.water :=
  ⟨rfl, rfl, rfl, rfl, rfl, rfl, rfl, rfl,
    waterlog_companion_c9 envWJ "block" ["oak[waterlogged=true]"]
      (({} : Percents),
        ({ blockId := -2140000002, blockData := 3, blockIdfunc := "mapped",
           constBlock := true, block := Block.ext 1,
           exBlock := Block.water } : RawBlock)) []
      rfl rfl rfl rfl rfl rfl rfl rfl⟩

end WE
